import Mathlib

/-!
Verification development for the esaxx-rs enhanced-suffix-array library.

The files `src/structs.rs`, `src/lib.rs` and `src/c_ver.rs` are embedded
directly.  The algorithmic core (`src/esa.rs`, `src/sais.rs`) and the error
type (`src/types.rs`) are not part of the available sources; they are
modelled from the specification (doc comments marked
`Modelled from the spec:`), pinned against the literal end-to-end scenario
the specification records for the input "abracadabra".

Conventions of the embedding:
* Unicode code points are `Nat`; an input string is its `List Nat` of
  code points (the `u32_chars` sequence of `suffix_rs`).
* `usize` values are `Nat`, `i32` values are `Int`.
* A Rust operation that can panic (indexing, underflowing subtraction,
  `try_into().unwrap()`, slicing) is embedded in `Except Unit`, where
  `.error ()` is a panic.
* An iterator `next` call is a state transformer: it receives the cursor
  and returns the optional item together with the new cursor.
-/

/-- Strict lexicographic comparison on code-point sequences, `true` iff the
first sequence is strictly smaller.  A proper prefix is smaller than its
extensions. -/
def lexLt : List Nat → List Nat → Bool
  | [], [] => false
  | [], _ :: _ => true
  | _ :: _, [] => false
  | a :: as, b :: bs => decide (a < b) || (decide (a = b) && lexLt as bs)

theorem lexLt_irrefl (l : List Nat) : lexLt l l = false := by
  induction l with
  | nil => rfl
  | cons a as ih => simp [lexLt, ih]

theorem lexLt_trans :
    ∀ a b c : List Nat, lexLt a b = true → lexLt b c = true → lexLt a c = true
  | [], [], _, h1, _ => by simp [lexLt] at h1
  | [], _ :: _, [], _, h2 => by simp [lexLt] at h2
  | [], _ :: _, _ :: _, _, _ => by simp [lexLt]
  | _ :: _, [], _, h1, _ => by simp [lexLt] at h1
  | _ :: _, _ :: _, [], _, h2 => by simp [lexLt] at h2
  | a :: as, b :: bs, c :: cs, h1, h2 => by
    simp only [lexLt, Bool.or_eq_true, Bool.and_eq_true, decide_eq_true_eq] at h1 h2 ⊢
    rcases h1 with h1 | ⟨rfl, h1⟩
    · rcases h2 with h2 | ⟨rfl, _⟩
      · exact Or.inl (Nat.lt_trans h1 h2)
      · exact Or.inl h1
    · rcases h2 with h2 | ⟨rfl, h2⟩
      · exact Or.inl h2
      · exact Or.inr ⟨rfl, lexLt_trans as bs cs h1 h2⟩

theorem lexLt_antisymm :
    ∀ a b : List Nat, lexLt a b = false → lexLt b a = false → a = b
  | [], [], _, _ => rfl
  | [], _ :: _, h1, _ => by simp [lexLt] at h1
  | _ :: _, [], _, h2 => by simp [lexLt] at h2
  | a :: as, b :: bs, h1, h2 => by
    simp only [lexLt, Bool.or_eq_false_iff, Bool.and_eq_false_iff,
      decide_eq_false_iff_not, Nat.not_lt] at h1 h2
    obtain ⟨hba, h1'⟩ := h1
    obtain ⟨hab, h2'⟩ := h2
    have hba' : a = b := Nat.le_antisymm hab hba
    subst hba'
    rcases h1' with h | h1'
    · simp at h
    · rcases h2' with h | h2'
      · simp at h
      · exact congrArg (a :: ·) (lexLt_antisymm as bs h1' h2')

/-- Lexicographic "less than or equal" as the specification's sort-order
invariant uses it: `a` is not strictly greater than `b`. -/
def lexLe (a b : List Nat) : Prop := lexLt b a = false

/-- Agreement of the executable comparison with Mathlib's canonical strict
lexicographic order on lists. -/
theorem lexLt_iff_lex :
    ∀ a b : List Nat, lexLt a b = true ↔ List.Lex (· < ·) a b
  | [], [] => by simp [lexLt]
  | [], b :: bs => by simpa [lexLt] using List.Lex.nil
  | a :: as, [] => by
    refine iff_of_false (by simp [lexLt]) ?_
    intro h
    cases h
  | a :: as, b :: bs => by
    simp only [lexLt, Bool.or_eq_true, Bool.and_eq_true, decide_eq_true_eq]
    constructor
    · rintro (h | ⟨rfl, h⟩)
      · exact List.Lex.rel h
      · exact List.Lex.cons ((lexLt_iff_lex as bs).1 h)
    · intro h
      cases h with
      | rel h => exact Or.inl h
      | cons h => exact Or.inr ⟨rfl, (lexLt_iff_lex as bs).2 h⟩

/-- Ordering of suffix start offsets of `t`: the suffix starting at `i` is
lexicographically at most the suffix starting at `j`. -/
def suffixLe (t : List Nat) (i j : Nat) : Prop := lexLe (t.drop i) (t.drop j)

instance (t : List Nat) : DecidableRel (suffixLe t) := fun _ _ =>
  inferInstanceAs (Decidable (_ = false))

instance (t : List Nat) : IsTotal Nat (suffixLe t) := by
  constructor
  intro i j
  by_cases h : lexLt (t.drop j) (t.drop i) = false
  · exact Or.inl h
  · refine Or.inr ?_
    by_cases h2 : lexLt (t.drop i) (t.drop j) = false
    · exact h2
    · exfalso
      have h' := eq_true_of_ne_false h
      have h2' := eq_true_of_ne_false h2
      have := lexLt_trans _ _ _ h' h2'
      rw [lexLt_irrefl] at this
      exact Bool.false_ne_true this

instance (t : List Nat) : IsTrans Nat (suffixLe t) := by
  constructor
  intro i j k h1 h2
  unfold suffixLe lexLe at h1 h2 ⊢
  by_contra hc
  have hc' := eq_true_of_ne_false hc
  by_cases hjk : lexLt (t.drop j) (t.drop k) = true
  · have : lexLt (t.drop j) (t.drop i) = true := lexLt_trans _ _ _ hjk hc'
    rw [h1] at this
    exact Bool.false_ne_true this
  · have hjk' : lexLt (t.drop j) (t.drop k) = false := Bool.eq_false_iff.2 hjk
    have : t.drop j = t.drop k := lexLt_antisymm _ _ hjk' h2
    rw [← this] at hc'
    rw [h1] at hc'
    exact Bool.false_ne_true hc'

/-- Modelled from the spec: the Suffix Sorter (`src/sais.rs`, not under
`src/`).  Its contract (§4.1, §3) determines the output uniquely: a
permutation of the offsets `0..n` such that the corresponding suffixes are
in lexicographic order; distinct suffixes of one string are never equal, so
any correct sorter returns this list.  The induced-sorting scheme is an
implementation strategy for the same value, so the sorter is modelled by
sorting the offsets with the suffix order. -/
def suffixSort (t : List Nat) : List Nat :=
  List.insertionSort (suffixLe t) (List.range t.length)

theorem suffixSort_perm (t : List Nat) : (suffixSort t).Perm (List.range t.length) :=
  List.perm_insertionSort _ _

theorem suffixSort_sorted (t : List Nat) : (suffixSort t).Sorted (suffixLe t) :=
  List.sorted_insertionSort _ _

theorem suffixSort_length (t : List Nat) : (suffixSort t).length = t.length := by
  rw [(suffixSort_perm t).length_eq, List.length_range]

/-- Modelled from the spec: construction of the inverse-permutation link used
by the LCP scan of §4.2 step 1 (`src/esa.rs`, not under `src/`).  `psi`
maps each suffix offset to the offset of its predecessor in suffix-array
order, with the first entry wrapping to the last. -/
def buildPsiGo (sa : List Nat) : Nat → List Nat → Nat → List Nat
  | _, psi, 0 => psi
  | i, psi, fuel + 1 =>
    if i < sa.length then
      buildPsiGo sa (i + 1) (psi.set (sa.getD i 0) (sa.getD (i - 1) 0)) fuel
    else psi

/-- Modelled from the spec: see `buildPsiGo`. -/
def buildPsi (sa : List Nat) (n : Nat) : List Nat :=
  buildPsiGo sa 1 ((List.replicate n 0).set (sa.getD 0 0) (sa.getD (n - 1) 0)) n

/-- Modelled from the spec: the character-matching loop of the permuted-LCP
scan (§4.2 step 1).  Starting from a carried match length `h`, extend while
both offsets stay in bounds and the symbols agree. -/
def extendMatch (t : List Nat) (i j : Nat) : Nat → Nat → Nat
  | h, 0 => h
  | h, fuel + 1 =>
    if i + h < t.length ∧ j + h < t.length ∧ t.getD (i + h) 0 = t.getD (j + h) 0 then
      extendMatch t i j (h + 1) fuel
    else h

/-- Modelled from the spec: the permuted-LCP scan (§4.2 step 1, the
"standard O(n) LCP construction using the inverse suffix array and one
linear scan").  Position order, carrying the match length minus one into
the next position. -/
def plcpGo (t psi : List Nat) : Nat → Nat → Nat → List Nat
  | _, _, 0 => []
  | i, h, fuel + 1 =>
    let h2 := extendMatch t i (psi.getD i 0) h (t.length + 1)
    h2 :: plcpGo t psi (i + 1) (h2 - 1) fuel

/-- Modelled from the spec: see `plcpGo`; entry `p` of the result is the
common-prefix length of the suffix at offset `p` with its suffix-array
predecessor. -/
def plcp (t psi : List Nat) : List Nat := plcpGo t psi 0 0 t.length

/-- A node of the interval builder: `(left, right, depth)`. -/
abbrev IntervalNode := Nat × Nat × Nat

/-- Modelled from the spec: the pop phase of one sweep step (§4.2 step 2).
While the top-of-stack depth exceeds the current height, pop it and emit a
node closing at the current index; also report the start of the deepest
interval popped. -/
def sweepPops (i h : Nat) :
    List (Nat × Nat) → List IntervalNode × List (Nat × Nat) × Option Nat
  | [] => ([], [], none)
  | (st, d) :: rest =>
    if h < d then
      let r := sweepPops i h rest
      ((st, i, d) :: r.1, r.2.1, some (r.2.2.getD st))
    else ([], (st, d) :: rest, none)

/-- Modelled from the spec: one step of the stack sweep (§4.2 step 2): close
every deeper open interval at index `i`, then open a new interval at depth
`h` when the remaining top is shallower, starting at the leftmost point
just closed (or at `i - 1` when nothing closed). -/
def sweepStep (i h : Nat) (stack : List (Nat × Nat)) :
    List IntervalNode × List (Nat × Nat) :=
  let r := sweepPops i h stack
  let stack2 := r.2.1
  let newStack :=
    match stack2 with
    | [] => [(r.2.2.getD (i - 1), h)]
    | (st2, d2) :: rest2 =>
      if d2 < h then (r.2.2.getD (i - 1), h) :: (st2, d2) :: rest2
      else (st2, d2) :: rest2
  (r.1, newStack)

/-- Modelled from the spec: the left-to-right sweep over positions 1..n
(§4.2 step 2), accumulating emitted nodes in emission order. -/
def sweepGo (hts : List Nat) : Nat → List (Nat × Nat) → List IntervalNode → Nat →
    List IntervalNode × List (Nat × Nat)
  | _, stack, acc, 0 => (acc, stack)
  | i, stack, acc, fuel + 1 =>
    if i < hts.length then
      let r := sweepStep i (hts.getD i 0) stack
      sweepGo hts (i + 1) r.2 (acc ++ r.1) fuel
    else (acc, stack)

/-- Modelled from the spec: writing the emitted nodes into the three caller
buffers at consecutive indices from 0 (§4.2; the buffers double as the
scratch space of step 1, which is what the literal scenario of §8 records
beyond index `node_num`). -/
def writeNodesGo : List IntervalNode → Nat → List Nat → List Nat → List Nat →
    List Nat × List Nat × List Nat
  | [], _, lA, rA, dA => (lA, rA, dA)
  | (st, ri, d) :: rest, k, lA, rA, dA =>
    writeNodesGo rest (k + 1) (lA.set k st) (rA.set k ri) (dA.set k d)

/-- Modelled from the spec: the LCP/Interval Builder (§4.2; `src/esa.rs`,
not under `src/`).  Step 1 computes the permuted LCP values into the right
buffer and the height array (LCP values in suffix-array order) into the
left buffer; step 2 sweeps the heights with an explicit stack, the stack
bottom being the root interval at depth 0; step 3 drains the remaining
stack against `right = n`, the root interval last.  The emitted nodes are
written over the first `node_num` positions of the three buffers. -/
def suffixtree (t sa : List Nat) : List Nat × List Nat × List Nat × Nat :=
  let n := t.length
  let psi := buildPsi sa n
  let plcpL := plcp t psi
  let hts := (List.range n).map fun i => plcpL.getD (sa.getD i 0) 0
  let swept := sweepGo hts 1 [(0, 0)] [] n
  let nodes := swept.1 ++ swept.2.map fun sd => (sd.1, n, sd.2)
  let written := writeNodesGo nodes 0 hts plcpL (List.replicate n 0)
  (written.1, written.2.1, written.2.2, nodes.length)

/-- Modelled from the spec: the error taxonomy of §7 (`src/types.rs`, not
under `src/`): a buffer-length mismatch detected up front, or an internal
failure of the sorting/interval stage. -/
inductive SuffixError where
  | InvalidLength : SuffixError
  | Internal : SuffixError
deriving DecidableEq

/-- Modelled from the spec: the self-contained construction core
(`esaxx_rs` in `src/esa.rs`, not under `src/`): run the Suffix Sorter, then
for nonempty input the LCP/Interval Builder, returning the four arrays and
the node count (§4.3, §8 empty-input rule: n = 0 yields no nodes and no
failure).  The buffers are created by the caller `suffix_rs` with length n,
so the length precondition of §4.1/§7 holds by construction and the model
is total. -/
def esaxx_rs (t : List Nat) :
    Except SuffixError (List Nat × List Nat × List Nat × List Nat × Nat) :=
  let n := t.length
  let sa := suffixSort t
  if n = 0 then .ok (sa, [], [], [], 0)
  else
    let st := suffixtree t sa
    .ok (sa, st.1, st.2.1, st.2.2.1, st.2.2.2)

/-- The enhanced suffix structure of `src/structs.rs` (`Suffix<usize>`):
the owned code points, the four parallel arrays and the node count. -/
structure Suffix where
  chars : List Nat
  suffix_array : List Nat
  left_array : List Nat
  right_array : List Nat
  depth_array : List Nat
  node_num : Nat
deriving DecidableEq

/-- The primary entry point `suffix_rs` of `src/lib.rs`: collect the code
points, size the four buffers at n, run the core, and package the result. -/
def suffix_rs (t : List Nat) : Except SuffixError Suffix :=
  match esaxx_rs t with
  | .error e => .error e
  | .ok (sa, lA, rA, dA, nn) =>
    .ok { chars := t, suffix_array := sa, left_array := lA,
          right_array := rA, depth_array := dA, node_num := nn }

/-- Rust indexing `xs[i]` on a `Vec<usize>`: the value, or a panic when out
of bounds. -/
def idxNat (l : List Nat) (i : Nat) : Except Unit Nat :=
  if i < l.length then .ok (l.getD i 0) else .error ()

/-- Rust `usize` subtraction `a - b`: panics on underflow. -/
def checkedSub (a b : Nat) : Except Unit Nat :=
  if b ≤ a then .ok (a - b) else .error ()

/-- Rust `usize -> u32` conversion via `try_into().unwrap()`: panics when
the value does not fit 32 bits. -/
def u32OfNat (v : Nat) : Except Unit Nat :=
  if v < 4294967296 then .ok v else .error ()

/-- Rust slicing `chars[a..b]`: the sub-list, or a panic when the range is
invalid or exceeds the length. -/
def sliceE (chars : List Nat) (a b : Nat) : Except Unit (List Nat) :=
  if a ≤ b ∧ b ≤ chars.length then .ok ((chars.drop a).take (b - a)) else .error ()

/-- The `Iterator` implementation for `SuffixIterator<'_, usize>` in
`src/structs.rs`, as a state transformer on the cursor `i`: at `node_num`
it yields nothing and leaves the cursor; otherwise it reads
`left_array[index]`, `suffix_array[left]`, `depth_array[index]`, computes
`right_array[index] - left_array[index]` with the `u32` conversion, bumps
the cursor and yields the slice and frequency.  `.error ()` is a panic. -/
def Suffix.next (s : Suffix) (i : Nat) :
    Except Unit (Option (List Nat × Nat) × Nat) :=
  if i = s.node_num then .ok (none, i)
  else
    match idxNat s.left_array i with
    | .error e => .error e
    | .ok left =>
      match idxNat s.suffix_array left with
      | .error e => .error e
      | .ok offset =>
        match idxNat s.depth_array i with
        | .error e => .error e
        | .ok len =>
          match idxNat s.right_array i, idxNat s.left_array i with
          | .error e, _ => .error e
          | .ok _, .error e => .error e
          | .ok rv, .ok lv =>
            match checkedSub rv lv with
            | .error e => .error e
            | .ok diff =>
              match u32OfNat diff with
              | .error e => .error e
              | .ok freq =>
                match sliceE s.chars offset (offset + len) with
                | .error e => .error e
                | .ok slice => .ok (some (slice, freq), i + 1)

/-- The enhanced suffix structure at index type `i32`
(`Suffix<i32>` of `src/structs.rs`). -/
structure SuffixI32 where
  chars : List Nat
  suffix_array : List Int
  left_array : List Int
  right_array : List Int
  depth_array : List Int
  node_num : Nat
deriving DecidableEq

/-- Rust indexing on a `Vec<i32>`. -/
def idxInt (l : List Int) (i : Nat) : Except Unit Int :=
  if i < l.length then .ok (l.getD i 0) else .error ()

/-- Rust `i32 -> usize` conversion via `try_into().ok()`: `none` for a
negative value. -/
def toUsize (v : Int) : Option Nat :=
  if 0 ≤ v then some v.toNat else none

/-- Rust `i32 -> u32` conversion via `try_into().ok()`: `none` for a
negative value. -/
def toU32 (v : Int) : Option Nat :=
  if 0 ≤ v ∧ v < 4294967296 then some v.toNat else none

/-- Rust `i32` subtraction `a - b`: overflow of the 32-bit signed range is
a panic, like the checked `usize` subtraction of the other iterator (the
standard debug-build semantics; overflow is a program error either way,
never a defined value of the mathematical difference). -/
def i32Sub (a b : Int) : Except Unit Int :=
  if -2147483648 ≤ a - b ∧ a - b < 2147483648 then .ok (a - b) else .error ()

/-- The `Iterator` implementation for `SuffixIterator<'_, i32>` in
`src/structs.rs`: identical shape, except that every read value passes
through a fallible conversion whose failure is propagated with the `?`
operator as iterator exhaustion (yield `none`) before the cursor update
`self.i += 1` is reached.  The frequency subtraction is the `i32`
subtraction of the source, so its overflow is a panic, not a value. -/
def SuffixI32.next (s : SuffixI32) (i : Nat) :
    Except Unit (Option (List Nat × Nat) × Nat) :=
  if i = s.node_num then .ok (none, i)
  else
    match idxInt s.left_array i with
    | .error e => .error e
    | .ok leftI =>
      match toUsize leftI with
      | none => .ok (none, i)
      | some left =>
        match idxInt s.suffix_array left with
        | .error e => .error e
        | .ok offI =>
          match toUsize offI with
          | none => .ok (none, i)
          | some offset =>
            match idxInt s.depth_array i with
            | .error e => .error e
            | .ok lenI =>
              match toUsize lenI with
              | none => .ok (none, i)
              | some len =>
                match idxInt s.right_array i, idxInt s.left_array i with
                | .error e, _ => .error e
                | .ok _, .error e => .error e
                | .ok rI, .ok lI =>
                  match i32Sub rI lI with
                  | .error e => .error e
                  | .ok diff =>
                    match toU32 diff with
                    | none => .ok (none, i)
                    | some freq =>
                      match sliceE s.chars offset (offset + len) with
                      | .error e => .error e
                      | .ok slice => .ok (some (slice, freq), i + 1)

/-- The invariants the specification guarantees for a successfully built
structure (§3 data model): the four arrays have the input's length, the
node count is bounded by it, and every node has `left < right ≤ n` with
its substring `chars[SA[left] .. SA[left] + depth]` inside the sequence
(the interval-coverage property: all suffixes of the interval share a
prefix of length `depth`, so `depth` cannot exceed the suffix length). -/
def WellFormed (s : Suffix) : Prop :=
  s.suffix_array.length = s.chars.length ∧
  s.left_array.length = s.chars.length ∧
  s.right_array.length = s.chars.length ∧
  s.depth_array.length = s.chars.length ∧
  s.node_num ≤ s.chars.length ∧
  ∀ i < s.node_num,
    s.left_array.getD i 0 < s.right_array.getD i 0 ∧
    s.right_array.getD i 0 ≤ s.chars.length ∧
    s.suffix_array.getD (s.left_array.getD i 0) 0 + s.depth_array.getD i 0 ≤
      s.chars.length

/-- The code points of "abracadabra". -/
def abracadabra : List Nat := [97, 98, 114, 97, 99, 97, 100, 97, 98, 114, 97]

theorem suffix_rs_fields {t : List Nat} {s : Suffix} (h : suffix_rs t = .ok s) :
    s.chars = t ∧ s.suffix_array = suffixSort t := by
  unfold suffix_rs esaxx_rs at h
  by_cases hn : t.length = 0
  · simp only [hn, if_true, reduceIte] at h
    cases h
    exact ⟨rfl, rfl⟩
  · simp only [hn, if_false, reduceIte] at h
    cases h
    exact ⟨rfl, rfl⟩

theorem buildPsiGo_length (sa : List Nat) :
    ∀ (fuel i : Nat) (psi : List Nat), (buildPsiGo sa i psi fuel).length = psi.length := by
  intro fuel
  induction fuel with
  | zero => intro i psi; rfl
  | succ fuel ih =>
    intro i psi
    unfold buildPsiGo
    by_cases hi : i < sa.length
    · simp only [hi, if_true, reduceIte, ih, List.length_set]
    · simp [hi]

theorem buildPsi_length (sa : List Nat) (n : Nat) : (buildPsi sa n).length = n := by
  unfold buildPsi
  rw [buildPsiGo_length, List.length_set, List.length_replicate]

theorem plcpGo_length (t psi : List Nat) :
    ∀ (fuel i h : Nat), (plcpGo t psi i h fuel).length = fuel := by
  intro fuel
  induction fuel with
  | zero => intro i h; rfl
  | succ fuel ih => intro i h; unfold plcpGo; simp [ih]

theorem writeNodesGo_length :
    ∀ (nodes : List IntervalNode) (k : Nat) (lA rA dA : List Nat),
      (writeNodesGo nodes k lA rA dA).1.length = lA.length ∧
      (writeNodesGo nodes k lA rA dA).2.1.length = rA.length ∧
      (writeNodesGo nodes k lA rA dA).2.2.length = dA.length := by
  intro nodes
  induction nodes with
  | nil => intro k lA rA dA; exact ⟨rfl, rfl, rfl⟩
  | cons nd rest ih =>
    intro k lA rA dA
    obtain ⟨nl, nr, nd'⟩ := nd
    unfold writeNodesGo
    obtain ⟨e1, e2, e3⟩ := ih (k + 1) (lA.set k nl) (rA.set k nr) (dA.set k nd')
    rw [e1, e2, e3]
    simp [List.length_set]

theorem suffixtree_lengths (t sa : List Nat) :
    (suffixtree t sa).1.length = t.length ∧
    (suffixtree t sa).2.1.length = t.length ∧
    (suffixtree t sa).2.2.1.length = t.length := by
  simp only [suffixtree]
  refine ⟨?_, ?_, ?_⟩
  · rw [(writeNodesGo_length _ _ _ _ _).1]; simp
  · rw [(writeNodesGo_length _ _ _ _ _).2.1]; unfold plcp; rw [plcpGo_length]
  · rw [(writeNodesGo_length _ _ _ _ _).2.2]; simp

theorem next_ok_of_wf {s : Suffix} (hw : WellFormed s)
    (hn : s.chars.length < 4294967296) {i : Nat} (hi : i < s.node_num) :
    Suffix.next s i =
      .ok (some ((s.chars.drop
            (s.suffix_array.getD (s.left_array.getD i 0) 0)).take
              (s.depth_array.getD i 0),
          s.right_array.getD i 0 - s.left_array.getD i 0),
        i + 1) := by
  obtain ⟨hsa, hl, hr, hd, hnn, hnode⟩ := hw
  obtain ⟨h1, h2, h3⟩ := hnode i hi
  have hiN : ¬ i = s.node_num := Nat.ne_of_lt hi
  have hil : i < s.left_array.length := by omega
  have hir : i < s.right_array.length := by omega
  have hid : i < s.depth_array.length := by omega
  have hlr : s.left_array.getD i 0 < s.suffix_array.length := by omega
  have hoff : s.suffix_array.getD (s.left_array.getD i 0) 0 +
      s.depth_array.getD i 0 ≤ s.chars.length := h3
  have hsub : s.left_array.getD i 0 ≤ s.right_array.getD i 0 := Nat.le_of_lt h1
  have hfit : s.right_array.getD i 0 - s.left_array.getD i 0 < 4294967296 := by omega
  unfold Suffix.next
  rw [if_neg hiN]
  simp only [idxNat, hil, hir, hid, hlr, if_true, reduceIte, checkedSub, hsub,
    u32OfNat, hfit, sliceE]
  have hcond : s.suffix_array.getD (s.left_array.getD i 0) 0 ≤
      s.suffix_array.getD (s.left_array.getD i 0) 0 + s.depth_array.getD i 0 ∧
      s.suffix_array.getD (s.left_array.getD i 0) 0 + s.depth_array.getD i 0 ≤
        s.chars.length := ⟨Nat.le_add_right _ _, hoff⟩
  simp only [hcond, and_true, if_true, reduceIte, Nat.add_sub_cancel_left]

/-- Claim C1: the primary entry point on "abracadabra" succeeds and returns
the structure with node_num 5, the literal suffix/left/right/depth arrays,
and an iterator yielding ("abra", 2), ("a", 5), ("bra", 2), ("ra", 2),
("", 11) and then nothing. -/
theorem C1_abracadabra_end_to_end :
    ∃ s, suffix_rs abracadabra = .ok s ∧
      s.node_num = 5 ∧
      s.suffix_array = [10, 7, 0, 3, 5, 8, 1, 4, 6, 9, 2] ∧
      s.left_array = [1, 0, 5, 9, 0, 0, 3, 0, 0, 0, 2] ∧
      s.right_array = [3, 5, 7, 11, 11, 1, 0, 1, 0, 0, 0] ∧
      s.depth_array = [4, 1, 3, 2, 0, 0, 0, 0, 0, 0, 0] ∧
      Suffix.next s 0 = .ok (some ([97, 98, 114, 97], 2), 1) ∧
      Suffix.next s 1 = .ok (some ([97], 5), 2) ∧
      Suffix.next s 2 = .ok (some ([98, 114, 97], 2), 3) ∧
      Suffix.next s 3 = .ok (some ([114, 97], 2), 4) ∧
      Suffix.next s 4 = .ok (some ([], 11), 5) ∧
      Suffix.next s 5 = .ok (none, 5) :=
  ⟨_, rfl, rfl, rfl, rfl, rfl, rfl, rfl, rfl, rfl, rfl, rfl, rfl⟩

/-- Claim C2: for every input, the suffix array of the structure returned by
the primary entry point is a permutation of the offsets 0..n, n being the
number of code points. -/
theorem C2_suffix_array_permutation (t : List Nat) (s : Suffix)
    (h : suffix_rs t = .ok s) :
    s.suffix_array.Perm (List.range t.length) := by
  rw [(suffix_rs_fields h).2]
  exact suffixSort_perm t

/-- Witness for C2 at the concrete input "abracadabra". -/
theorem C2_suffix_array_permutation_witness :
    ∃ s, suffix_rs abracadabra = .ok s ∧
      s.suffix_array.Perm (List.range abracadabra.length) :=
  ⟨_, rfl, C2_suffix_array_permutation abracadabra _ rfl⟩

/-- Claim C3: for every input and every index i with i + 1 < n, the suffix
of the symbol sequence starting at suffix_array index i is lexicographically
at most the one starting at index i + 1 (stated as: the latter is not
strictly below the former in the canonical lexicographic order). -/
theorem C3_suffix_array_sorted (t : List Nat) (s : Suffix)
    (h : suffix_rs t = .ok s) (i : Nat) (hi : i + 1 < t.length) :
    ¬ List.Lex (· < ·) (t.drop (s.suffix_array.getD (i + 1) 0))
        (t.drop (s.suffix_array.getD i 0)) := by
  obtain ⟨-, hsa⟩ := suffix_rs_fields h
  have hlen : s.suffix_array.length = t.length := by rw [hsa, suffixSort_length]
  have hi1 : i + 1 < s.suffix_array.length := by omega
  have hi0 : i < s.suffix_array.length := by omega
  have hs : s.suffix_array.Sorted (suffixLe t) := by
    rw [hsa]; exact suffixSort_sorted t
  have hrel := hs.rel_get_of_lt
    (a := ⟨i, hi0⟩) (b := ⟨i + 1, hi1⟩) (Fin.mk_lt_mk.mpr (Nat.lt_succ_self i))
  rw [List.getD_eq_getElem _ _ hi0, List.getD_eq_getElem _ _ hi1]
  rw [List.get_eq_getElem, List.get_eq_getElem] at hrel
  unfold suffixLe lexLe at hrel
  intro hlex
  rw [← lexLt_iff_lex, hrel] at hlex
  exact Bool.false_ne_true hlex

/-- Witness for C3 at the concrete input "abracadabra", adjacent pair 0, 1. -/
theorem C3_suffix_array_sorted_witness :
    ∃ s, suffix_rs abracadabra = .ok s ∧ 0 + 1 < abracadabra.length ∧
      ¬ List.Lex (· < ·) (abracadabra.drop (s.suffix_array.getD (0 + 1) 0))
        (abracadabra.drop (s.suffix_array.getD 0 0)) :=
  ⟨_, rfl, by decide, C3_suffix_array_sorted abracadabra _ rfl 0 (by decide)⟩

/-- Claim C8: the primary entry point on the empty string succeeds, with
node_num 0 and an iterator yielding nothing on the first call. -/
theorem C8_empty_input :
    ∃ s, suffix_rs [] = .ok s ∧ s.node_num = 0 ∧
      Suffix.next s 0 = .ok (none, 0) :=
  ⟨_, rfl, rfl, rfl⟩

/-- Claim C4: for a successfully built structure (one satisfying the
construction invariants of §3, with the documented 32-bit frequency bound
on n), the iterator yields exactly node_num pairs, visiting node indices
0, 1, ..., node_num - 1 in order, and from the node_num-th state every
further call yields nothing and leaves the cursor unchanged. -/
theorem C4_iterator_yields_node_num (s : Suffix) (hw : WellFormed s)
    (hn : s.chars.length < 4294967296) :
    (∀ k < s.node_num, ∃ item, Suffix.next s k = .ok (some item, k + 1)) ∧
    Suffix.next s s.node_num = .ok (none, s.node_num) := by
  constructor
  · intro k hk
    exact ⟨_, next_ok_of_wf hw hn hk⟩
  · unfold Suffix.next
    simp

/-- Witness for C4 at the structure built from "abracadabra". -/
theorem C4_iterator_yields_node_num_witness :
    ∃ s, suffix_rs abracadabra = .ok s ∧
      ((∀ k < s.node_num, ∃ item, Suffix.next s k = .ok (some item, k + 1)) ∧
        Suffix.next s s.node_num = .ok (none, s.node_num)) :=
  ⟨_, rfl, C4_iterator_yields_node_num _ (by unfold WellFormed; decide) (by decide)⟩

/-- Claim C5: for a successfully built structure (invariants of §3, 32-bit
bound on n) and every node index i, the i-th yielded pair is the slice
chars[suffix_array[left_array[i]] .. suffix_array[left_array[i]] +
depth_array[i]] with frequency right_array[i] - left_array[i], and the
cursor moves from i to i + 1. -/
theorem C5_item_formula (s : Suffix) (hw : WellFormed s)
    (hn : s.chars.length < 4294967296) (i : Nat) (hi : i < s.node_num) :
    Suffix.next s i =
      .ok (some ((s.chars.drop
            (s.suffix_array.getD (s.left_array.getD i 0) 0)).take
              (s.depth_array.getD i 0),
          s.right_array.getD i 0 - s.left_array.getD i 0),
        i + 1) :=
  next_ok_of_wf hw hn hi

/-- Witness for C5 at the structure built from "abracadabra", node 0. -/
theorem C5_item_formula_witness :
    ∃ s, suffix_rs abracadabra = .ok s ∧ 0 < s.node_num ∧
      Suffix.next s 0 =
        .ok (some ((s.chars.drop
              (s.suffix_array.getD (s.left_array.getD 0 0) 0)).take
                (s.depth_array.getD 0 0),
            s.right_array.getD 0 0 - s.left_array.getD 0 0),
          0 + 1) :=
  ⟨_, rfl, by decide,
    C5_item_formula _ (by unfold WellFormed; decide) (by decide) 0 (by decide)⟩

/-- Claim C9: for a successfully built structure (invariants of §3) and
every node index i, left_array[i] < right_array[i], so the frequency
right_array[i] - left_array[i] cannot underflow and is at least 1; it is
bounded by n, and under the documented 32-bit bound on n it fits u32 and
the usize iterator call at i performs no panicking conversion. -/
theorem C9_frequency_safe (s : Suffix) (hw : WellFormed s) (i : Nat)
    (hi : i < s.node_num) :
    s.left_array.getD i 0 < s.right_array.getD i 0 ∧
    1 ≤ s.right_array.getD i 0 - s.left_array.getD i 0 ∧
    s.right_array.getD i 0 - s.left_array.getD i 0 ≤ s.chars.length ∧
    (s.chars.length < 4294967296 →
      s.right_array.getD i 0 - s.left_array.getD i 0 < 4294967296 ∧
      ∃ out, Suffix.next s i = .ok out) := by
  obtain ⟨-, -, -, -, -, hnode⟩ := id hw
  obtain ⟨h1, h2, -⟩ := hnode i hi
  refine ⟨h1, by omega, by omega, fun hn => ⟨by omega, ?_⟩⟩
  exact ⟨_, next_ok_of_wf hw hn hi⟩

/-- Witness for C9 at the structure built from "abracadabra", node 0. -/
theorem C9_frequency_safe_witness :
    ∃ s, suffix_rs abracadabra = .ok s ∧ 0 < s.node_num ∧
      (s.left_array.getD 0 0 < s.right_array.getD 0 0 ∧
        1 ≤ s.right_array.getD 0 0 - s.left_array.getD 0 0 ∧
        s.right_array.getD 0 0 - s.left_array.getD 0 0 ≤ s.chars.length ∧
        (s.chars.length < 4294967296 →
          s.right_array.getD 0 0 - s.left_array.getD 0 0 < 4294967296 ∧
          ∃ out, Suffix.next s 0 = .ok out)) :=
  ⟨_, rfl, by decide,
    C9_frequency_safe _ (by unfold WellFormed; decide) 0 (by decide)⟩

/-- The result a call across the foreign boundary of `src/c_ver.rs` leaves
behind: the returned status and the contents written into the four output
buffers and the node-count out-parameter.  The C++ backend itself is an
external collaborator (§6), so it enters the model as an unconstrained
function producing such a record from the symbol buffer and the alphabet
bound. -/
structure BackendOut where
  status : Int
  sa : List Int
  l : List Int
  r : List Int
  d : List Int
  nodeNum : Nat

/-- The wrapper `esaxx` of `src/c_ver.rs`: reject with InvalidLength when
any of the four output buffers differs in length from the input, otherwise
perform the foreign call and reject with Internal exactly when its status
is non-zero. -/
def esaxx (backend : List Nat → Nat → BackendOut) (chars : List Nat)
    (sa l r d : List Int) (alphabet_size : Nat) :
    Except SuffixError (List Int × List Int × List Int × List Int × Nat) :=
  let n := chars.length
  if sa.length ≠ n ∨ l.length ≠ n ∨ r.length ≠ n ∨ d.length ≠ n then
    .error SuffixError.InvalidLength
  else
    let out := backend chars alphabet_size
    if out.status ≠ 0 then .error SuffixError.Internal
    else .ok (out.sa, out.l, out.r, out.d, out.nodeNum)

/-- Claim C7: the backend wrapper fails with InvalidLength exactly when one
of the four output buffers does not have length n; in that case the result
is the same for every backend, so the check precedes the foreign call.
With correct lengths it fails with Internal exactly when the backend status
is non-zero, and succeeds otherwise, handing back what the backend wrote. -/
theorem C7_wrapper_error_contract (backend : List Nat → Nat → BackendOut)
    (chars : List Nat) (sa l r d : List Int) (k : Nat) :
    (esaxx backend chars sa l r d k = .error SuffixError.InvalidLength ↔
      (sa.length ≠ chars.length ∨ l.length ≠ chars.length ∨
        r.length ≠ chars.length ∨ d.length ≠ chars.length)) ∧
    ((sa.length ≠ chars.length ∨ l.length ≠ chars.length ∨
        r.length ≠ chars.length ∨ d.length ≠ chars.length) →
      ∀ backend2, esaxx backend2 chars sa l r d k =
        .error SuffixError.InvalidLength) ∧
    (¬ (sa.length ≠ chars.length ∨ l.length ≠ chars.length ∨
        r.length ≠ chars.length ∨ d.length ≠ chars.length) →
      ((esaxx backend chars sa l r d k = .error SuffixError.Internal ↔
          (backend chars k).status ≠ 0) ∧
        ((backend chars k).status = 0 →
          esaxx backend chars sa l r d k =
            .ok ((backend chars k).sa, (backend chars k).l,
              (backend chars k).r, (backend chars k).d,
              (backend chars k).nodeNum)))) := by
  by_cases hbad : sa.length ≠ chars.length ∨ l.length ≠ chars.length ∨
      r.length ≠ chars.length ∨ d.length ≠ chars.length
  · have he : ∀ b2 : List Nat → Nat → BackendOut,
        esaxx b2 chars sa l r d k = .error SuffixError.InvalidLength := by
      intro b2
      simp only [esaxx]
      rw [if_pos hbad]
    exact ⟨iff_of_true (he backend) hbad, fun _ b2 => he b2,
      fun hc => absurd hbad hc⟩
  · by_cases hst : (backend chars k).status ≠ 0
    · have he : esaxx backend chars sa l r d k = .error SuffixError.Internal := by
        simp only [esaxx]
        rw [if_neg hbad, if_pos hst]
      refine ⟨?_, fun hc => absurd hc hbad,
        fun _ => ⟨iff_of_true he hst, fun h0 => absurd h0 hst⟩⟩
      rw [he]
      exact iff_of_false (by intro hc; cases hc) hbad
    · have he : esaxx backend chars sa l r d k =
          .ok ((backend chars k).sa, (backend chars k).l, (backend chars k).r,
            (backend chars k).d, (backend chars k).nodeNum) := by
        simp only [esaxx]
        rw [if_neg hbad, if_neg hst]
      refine ⟨?_, fun hc => absurd hc hbad, fun _ => ⟨?_, fun _ => he⟩⟩
      · rw [he]
        exact iff_of_false (by intro hc; cases hc) hbad
      · rw [he]
        exact iff_of_false (by intro hc; cases hc) hst

/-- Witness for C7: a one-symbol input with correctly sized buffers and a
backend reporting success. -/
theorem C7_wrapper_error_contract_witness :
    (esaxx (fun _ _ => ⟨0, [0], [0], [1], [0], 1⟩) [97] [0] [0] [1] [0] 17 =
        .error SuffixError.InvalidLength ↔
      (([0] : List Int).length ≠ ([97] : List Nat).length ∨
        ([0] : List Int).length ≠ ([97] : List Nat).length ∨
        ([1] : List Int).length ≠ ([97] : List Nat).length ∨
        ([0] : List Int).length ≠ ([97] : List Nat).length)) ∧
    ((([0] : List Int).length ≠ ([97] : List Nat).length ∨
        ([0] : List Int).length ≠ ([97] : List Nat).length ∨
        ([1] : List Int).length ≠ ([97] : List Nat).length ∨
        ([0] : List Int).length ≠ ([97] : List Nat).length) →
      ∀ backend2, esaxx backend2 [97] [0] [0] [1] [0] 17 =
        .error SuffixError.InvalidLength) ∧
    (¬ (([0] : List Int).length ≠ ([97] : List Nat).length ∨
        ([0] : List Int).length ≠ ([97] : List Nat).length ∨
        ([1] : List Int).length ≠ ([97] : List Nat).length ∨
        ([0] : List Int).length ≠ ([97] : List Nat).length) →
      ((esaxx (fun _ _ => ⟨0, [0], [0], [1], [0], 1⟩) [97] [0] [0] [1] [0] 17 =
            .error SuffixError.Internal ↔
          ((fun (_ : List Nat) (_ : Nat) =>
            (⟨0, [0], [0], [1], [0], 1⟩ : BackendOut)) [97] 17).status ≠ 0) ∧
        (((fun (_ : List Nat) (_ : Nat) =>
            (⟨0, [0], [0], [1], [0], 1⟩ : BackendOut)) [97] 17).status = 0 →
          esaxx (fun _ _ => ⟨0, [0], [0], [1], [0], 1⟩) [97] [0] [0] [1] [0] 17 =
            .ok ([0], [0], [1], [0], 1)))) :=
  C7_wrapper_error_contract (fun _ _ => ⟨0, [0], [0], [1], [0], 1⟩) [97] [0] [0] [1] [0] 17

/-- Counterexample to claim C6: for "abracadabra" the returned structure has
node_num 5 while the left, right and depth arrays each have length 11 (the
input length), so "each have length exactly node_num" fails. -/
theorem C6_counterexample :
    ∃ s, suffix_rs abracadabra = .ok s ∧ s.node_num = 5 ∧
      s.left_array.length = 11 ∧ s.right_array.length = 11 ∧
      s.depth_array.length = 11 ∧ ¬ s.left_array.length = s.node_num :=
  ⟨_, rfl, rfl, rfl, rfl, rfl, by decide⟩

/-- Amended claim C6: in the structure returned by the construction entry
point the left, right and depth arrays (and the suffix array) each have
length exactly n, the input length; only the first node_num entries are
node data, index i < node_num describing one node across the three
arrays. -/
theorem C6_amended_array_lengths (t : List Nat) (s : Suffix)
    (h : suffix_rs t = .ok s) :
    s.left_array.length = t.length ∧ s.right_array.length = t.length ∧
    s.depth_array.length = t.length ∧ s.suffix_array.length = t.length := by
  have hsa : s.suffix_array.length = t.length := by
    rw [(suffix_rs_fields h).2, suffixSort_length]
  unfold suffix_rs esaxx_rs at h
  by_cases hn : t.length = 0
  · simp only [hn, if_true, reduceIte] at h
    cases h
    refine ⟨?_, ?_, ?_, hsa⟩ <;> simp [hn]
  · simp only [hn, if_false, reduceIte] at h
    obtain ⟨e1, e2, e3⟩ := suffixtree_lengths t (suffixSort t)
    cases h
    exact ⟨e1, e2, e3, hsa⟩

/-- Witness for the amended C6 at the concrete input "abracadabra". -/
theorem C6_amended_array_lengths_witness :
    ∃ s, suffix_rs abracadabra = .ok s ∧
      (s.left_array.length = abracadabra.length ∧
        s.right_array.length = abracadabra.length ∧
        s.depth_array.length = abracadabra.length ∧
        s.suffix_array.length = abracadabra.length) :=
  ⟨_, rfl, C6_amended_array_lengths abracadabra _ rfl⟩

/-- Claim C10: in the i32 iterator, when the cursor is still below node_num
but one of the values read is negative - left_array[index], or
suffix_array[left], or depth_array[index], or the difference
right_array[index] - left_array[index] - the call returns nothing and
leaves the cursor where it was: iteration ends silently instead of
reporting an error.  The nested hypothesis follows the source's read
order, each alternative assuming the earlier reads were in bounds and
converted successfully.  In the difference alternative a negative value is
only read when the i32 subtraction produces one, so that alternative
carries the lower bound of the representable range: below it the
subtraction overflows and the call aborts instead of computing a
difference at all. -/
theorem C10_i32_negative_short_circuit (s : SuffixI32) (i : Nat)
    (hi : i < s.node_num) (hil : i < s.left_array.length)
    (hcase :
      s.left_array.getD i 0 < 0 ∨
      (0 ≤ s.left_array.getD i 0 ∧
        (s.left_array.getD i 0).toNat < s.suffix_array.length ∧
        (s.suffix_array.getD (s.left_array.getD i 0).toNat 0 < 0 ∨
          (0 ≤ s.suffix_array.getD (s.left_array.getD i 0).toNat 0 ∧
            i < s.depth_array.length ∧
            (s.depth_array.getD i 0 < 0 ∨
              (0 ≤ s.depth_array.getD i 0 ∧
                i < s.right_array.length ∧
                -2147483648 ≤ s.right_array.getD i 0 - s.left_array.getD i 0 ∧
                s.right_array.getD i 0 - s.left_array.getD i 0 < 0)))))) :
    SuffixI32.next s i = .ok (none, i) := by
  have hiN : ¬ i = s.node_num := Nat.ne_of_lt hi
  unfold SuffixI32.next
  rw [if_neg hiN]
  simp only [idxInt, hil, if_true, reduceIte]
  rcases hcase with hneg | ⟨hpos, hsl, hcase⟩
  · have : toUsize (s.left_array.getD i 0) = none := by
      unfold toUsize
      rw [if_neg (by omega)]
    rw [this]
  · have hl : toUsize (s.left_array.getD i 0) = some (s.left_array.getD i 0).toNat := by
      unfold toUsize
      rw [if_pos hpos]
    rw [hl]
    simp only [idxInt, hsl, if_true, reduceIte]
    rcases hcase with hneg | ⟨hpos2, hdl, hcase⟩
    · have : toUsize (s.suffix_array.getD (s.left_array.getD i 0).toNat 0) = none := by
        unfold toUsize
        rw [if_neg (by omega)]
      rw [this]
    · have ho : toUsize (s.suffix_array.getD (s.left_array.getD i 0).toNat 0) =
          some (s.suffix_array.getD (s.left_array.getD i 0).toNat 0).toNat := by
        unfold toUsize
        rw [if_pos hpos2]
      rw [ho]
      simp only [idxInt, hdl, if_true, reduceIte]
      rcases hcase with hneg | ⟨hpos3, hrl, hlo, hfreq⟩
      · have : toUsize (s.depth_array.getD i 0) = none := by
          unfold toUsize
          rw [if_neg (by omega)]
        rw [this]
      · have hd : toUsize (s.depth_array.getD i 0) =
            some (s.depth_array.getD i 0).toNat := by
          unfold toUsize
          rw [if_pos hpos3]
        rw [hd]
        simp only [idxInt, hrl, hil, if_true, reduceIte]
        have hsub : i32Sub (s.right_array.getD i 0) (s.left_array.getD i 0) =
            .ok (s.right_array.getD i 0 - s.left_array.getD i 0) := by
          unfold i32Sub
          rw [if_pos ⟨hlo, by omega⟩]
        have hnone : toU32 (s.right_array.getD i 0 - s.left_array.getD i 0) = none := by
          unfold toU32
          rw [if_neg (by omega)]
        simp only [hsub, hnone]

/-- Witness for C10: a one-node structure whose left_array entry is -1, on
which the i32 iterator's first call yields nothing with the cursor still
at 0. -/
theorem C10_i32_negative_short_circuit_witness :
    0 < (SuffixI32.mk [97] [0] [-1] [1] [0] 1).node_num ∧
    0 < (SuffixI32.mk [97] [0] [-1] [1] [0] 1).left_array.length ∧
    SuffixI32.next (SuffixI32.mk [97] [0] [-1] [1] [0] 1) 0 = .ok (none, 0) :=
  ⟨by decide, by decide,
    C10_i32_negative_short_circuit (SuffixI32.mk [97] [0] [-1] [1] [0] 1) 0
      (by decide) (by decide) (Or.inl (by decide))⟩
